import Mathlib

/-!
Shallow embedding of the core transformation engine of `custom-gherkin-utils`:
the Gherkin AST fragments the tool manipulates (`@cucumber/messages` shapes),
the placeholder substituter of `src/featureParser.ts`, the row expander /
entry collector / tag gatherer that exist in two copies
(`src/featureSplitter.ts` local functions, namespace `FS`, and
`src/helpers/gherkinUtils.ts` exports, namespace `GU`), and the table-cell
escaping of the serializer that lives in the splitter copy inside
`src/featureParser.ts` (namespace `FP`).

Machine strings are Lean `String`s (JS strings of the relevant inputs);
`undefined`-able fields are `Option`s; JS arrays are `List`s.
-/

namespace Gherkin

/-- One tag, e.g. `@smoke` (mirrors `messages.Tag`; only the fields the code
reads are kept). -/
structure Tag where
  id : String
  name : String
deriving DecidableEq, Repr

/-- A single table cell (mirrors `messages.TableCell`). -/
structure TableCell where
  value : String
deriving DecidableEq, Repr

/-- A table row (mirrors `messages.TableRow`). -/
structure TableRow where
  id : String
  cells : List TableCell
deriving DecidableEq, Repr

/-- A DocString attached to a step (mirrors `messages.DocString`). -/
structure DocString where
  content : String
deriving DecidableEq, Repr

/-- A DataTable attached to a step (mirrors `messages.DataTable`). -/
structure DataTable where
  rows : List TableRow
deriving DecidableEq, Repr

/-- A Gherkin step (mirrors `messages.Step`). -/
structure Step where
  id : String
  keyword : String
  text : String
  docString : Option DocString
  dataTable : Option DataTable
deriving DecidableEq, Repr

/-- An Examples block (mirrors `messages.Examples`). `tableHeader` and
`tableBody` may be absent at runtime (the TS code guards `!example.tableHeader`
and `!example.tableBody`), hence the `Option`s. -/
structure Examples where
  id : String
  tags : List Tag
  name : String
  description : String
  tableHeader : Option TableRow
  tableBody : Option (List TableRow)
deriving DecidableEq, Repr

/-- A Scenario / Scenario Outline (mirrors `messages.Scenario`). -/
structure Scenario where
  id : String
  keyword : String
  name : String
  description : String
  tags : List Tag
  steps : List Step
  examples : List Examples
deriving DecidableEq, Repr

/-- A Background (mirrors `messages.Background`). -/
structure Background where
  id : String
  name : String
  description : String
  steps : List Step
deriving DecidableEq, Repr

/-- A child of a Rule: background or scenario (mirrors `messages.RuleChild`,
which in TS is a struct of optional fields used mutually exclusively). -/
inductive RuleChild where
  | background (b : Background)
  | scenario (s : Scenario)
deriving DecidableEq, Repr

/-- A Rule (mirrors `messages.Rule`). -/
structure Rule where
  id : String
  tags : List Tag
  name : String
  description : String
  children : List RuleChild
deriving DecidableEq, Repr

/-- A child of a Feature (mirrors `messages.FeatureChild`). -/
inductive FeatureChild where
  | background (b : Background)
  | scenario (s : Scenario)
  | rule (r : Rule)
deriving DecidableEq, Repr

/-- A Feature (mirrors `messages.Feature`). -/
structure Feature where
  tags : List Tag
  name : String
  description : String
  children : List FeatureChild
deriving DecidableEq, Repr

/-! ### Placeholder substitution (`src/featureParser.ts`) -/

/-- JS `Record` lookup where later `forEach` assignments overwrite earlier
ones: the LAST binding of a key wins (models
`placeholderMap[cell.value] = ...` followed by `placeholderMap[placeholder]`). -/
def lookupLast : List (String × String) → String → Option String
  | [], _ => none
  | (k, v) :: rest, key =>
    match lookupLast rest key with
    | some v' => some v'
    | none => if k = key then some v else none

/-- The replacement the regex callback produces for a matched token `tok`
(the text between `<` and `>`): `placeholderMap[placeholder] ?? <placeholder>`
— the mapped value if the key exists, otherwise the token kept verbatim with
its angle brackets. -/
def tokenReplacement (pm : List (String × String)) (tok : List Char) : List Char :=
  match lookupLast pm (String.mk tok) with
  | some v => v.data
  | none => '<' :: (tok ++ ['>'])

/-- Operational model of `text.replace(/<([^>]+)>/g, cb)` from
`replacePlaceholders` (featureParser.ts:24-28), as a left-to-right scan.
`acc?` is `some acc` while inside a candidate match: `acc` holds (reversed)
the characters matched so far by `[^>]+` since the opening `<`. On a closing
`>` with a non-empty token the whole `<tok>` is replaced (replacements are
not rescanned); a `<` with no later `>` — or `<>` with an empty token — is
emitted literally, exactly as the JS regex engine leaves unmatched text. -/
def rpAux (pm : List (String × String)) : Option (List Char) → List Char → List Char
  | none, [] => []
  | some acc, [] => '<' :: acc.reverse
  | none, c :: rest =>
    if c = '<' then rpAux pm (some []) rest
    else c :: rpAux pm none rest
  | some acc, c :: rest =>
    if c = '>' then
      if acc = [] then '<' :: '>' :: rpAux pm none rest
      else tokenReplacement pm acc.reverse ++ rpAux pm none rest
    else rpAux pm (some (c :: acc)) rest

/-- `replacePlaceholders` (featureParser.ts:24-28) on Lean strings. -/
def replacePlaceholders (text : String) (pm : List (String × String)) : String :=
  String.mk (rpAux pm none text.data)

/-- The placeholder-value mapping built by `processScenarioOutline`
(featureParser.ts:43-48): header cell `i` maps to the first body row's cell
`i` value, or `''` when that cell is missing (`?.value || ''`; a present
empty-string cell is also `''`, which coincides with `getD ""`). -/
def buildPlaceholderMap (hdr row0 : TableRow) : List (String × String) :=
  hdr.cells.enum.map fun ic =>
    (ic.2.value, ((row0.cells.get? ic.1).map TableCell.value).getD "")

/-- The per-step transformation inside `processScenarioOutline`
(featureParser.ts:57-64): step text and DocString content are substituted,
the DataTable is spread through unchanged. -/
def substStep (pm : List (String × String)) (st : Step) : Step :=
  { st with
    text := replacePlaceholders st.text pm
    docString := st.docString.map fun d =>
      { d with content := replacePlaceholders d.content pm } }

/-- `processScenarioOutline` (featureParser.ts:33-68). `nid` is the value the
fresh `IdGenerator.uuid()()` call returns, passed explicitly to keep the
function pure. -/
def processScenarioOutline (nid : String) (s : Scenario) : Option Scenario :=
  match s.examples with
  | [] => none
  | ex :: _ =>
    match ex.tableHeader, ex.tableBody with
    | some hdr, some (r0 :: _) =>
      let pm := buildPlaceholderMap hdr r0
      some { s with
        examples := []
        name := replacePlaceholders s.name pm
        steps := s.steps.map (substStep pm)
        id := nid
        tags := s.tags }
    | _, _ => none

/-! ### Shared shapes of the splitter pipeline -/

/-- An entry of the splitter pipeline: one scenario with its owning rule (if
any) and the backgrounds in scope (mirrors the `ScenarioEntry` interface of
featureSplitter.ts:150-155 and gherkinUtils.ts:3-8). -/
structure ScenarioEntry where
  scenario : Scenario
  rule : Option Rule
  featureBackgrounds : List Background
  ruleBackgrounds : List Background
deriving DecidableEq, Repr

/-- The document-level backgrounds: every feature child that is a background,
in document order (featureSplitter.ts:166-168 / gherkinUtils.ts:19-21). -/
def featureBackgroundsOf (f : Feature) : List Background :=
  f.children.filterMap fun c =>
    match c with
    | .background b => some b
    | _ => none

/-- The backgrounds of one rule, in document order
(featureSplitter.ts:186-188 / gherkinUtils.ts:39-41). -/
def ruleBackgroundsOf (r : Rule) : List Background :=
  r.children.filterMap fun c =>
    match c with
    | .background b => some b
    | _ => none

/-- The scenarios of one rule, in document order
(featureSplitter.ts:191 / gherkinUtils.ts:44). -/
def ruleScenariosOf (r : Rule) : List Scenario :=
  r.children.filterMap fun c =>
    match c with
    | .scenario s => some s
    | _ => none

/-- `collectScenarioEntries` (featureSplitter.ts:161-203; the copy at
gherkinUtils.ts:14-56 is line-for-line identical): one entry per scenario at
top level or inside a rule, in document order; the document-level backgrounds
are attached to every entry, the rule-level backgrounds only to entries of
that rule. The TS code first filters the children to scenario-or-rule and
then loops; flat-mapping with `[]` for backgrounds is the same traversal. -/
def collectScenarioEntries (f : Feature) : List ScenarioEntry :=
  let featureBackgrounds := featureBackgroundsOf f
  f.children.flatMap fun c =>
    match c with
    | .background _ => []
    | .scenario s => [⟨s, none, featureBackgrounds, []⟩]
    | .rule r =>
      (ruleScenariosOf r).map fun s =>
        ⟨s, some r, featureBackgrounds, ruleBackgroundsOf r⟩

/-- Total body-row count of a scenario, summed across its Examples blocks
(the `totalRows` accumulation of featureSplitter.ts:215-218, with
`ex.tableBody?.length ?? 0` as `(tableBody.getD []).length`). -/
def scenarioTotalRows (s : Scenario) : Nat :=
  (s.examples.map fun ex => (ex.tableBody.getD []).length).sum

/-! ### Row expansion — the featureSplitter.ts local copy -/

namespace FS

/-- `cloneScenarioWithSingleRow` (featureSplitter.ts:245-285): every Examples
block is kept; the block whose `id` equals the target's keeps `[row]` (or `[]`
when `row` is `null`), every other block gets its body cleared to `[]`.
`deepCloneScenario` (JSON round-trip) is the identity on this pure model. -/
def cloneScenarioWithSingleRow (original : Scenario) (targetEx : Examples)
    (row : Option TableRow) : Scenario :=
  { original with
    examples := original.examples.map fun exBlock =>
      if exBlock.id = targetEx.id then { exBlock with tableBody := some row.toList }
      else { exBlock with tableBody := some [] } }

/-- `expandScenarioOutlineRows` (featureSplitter.ts:209-238): unchanged when
there are no Examples blocks or at most one total body row; otherwise one
clone per (block, row) pair in document order, plus one `null`-row clone for
each block whose body is missing or empty. -/
def expandScenarioOutlineRows (s : Scenario) : List Scenario :=
  if s.examples = [] then [s]
  else if scenarioTotalRows s ≤ 1 then [s]
  else
    s.examples.flatMap fun ex =>
      match ex.tableBody with
      | some (r :: rs) =>
        (r :: rs).map fun row => cloneScenarioWithSingleRow s ex (some row)
      | _ => [cloneScenarioWithSingleRow s ex none]

/-- `gatherAllTagNames` (featureSplitter.ts:430-439): feature, rule and
scenario tag names only — this copy does NOT read the Examples blocks. -/
def gatherAllTagNames (f : Feature) (rule : Option Rule) (s : Scenario) :
    List String :=
  f.tags.map Tag.name ++
    (match rule with
     | some r => r.tags.map Tag.name
     | none => []) ++
    s.tags.map Tag.name

end FS

/-! ### Row expansion — the helpers/gherkinUtils.ts copy -/

namespace GU

/-- `cloneScenarioWithSingleRow` (gherkinUtils.ts:84-100): the examples list
is FILTERED to the blocks whose `id` equals the target's (so every other
block is dropped from the clone), and each kept block's body becomes `[row]`
(or `[]` when `row` is `null`). -/
def cloneScenarioWithSingleRow (original : Scenario) (targetEx : Examples)
    (row : Option TableRow) : Scenario :=
  { original with
    examples := (original.examples.filter fun ex => ex.id = targetEx.id).map
      fun exBlock => { exBlock with tableBody := some row.toList } }

/-- `expandScenarioOutlineRows` (gherkinUtils.ts:62-77): unchanged when there
are no Examples blocks; otherwise one clone per (block, row) pair in document
order — there is no total-row-count short-circuit in this copy, and a block
with a missing or empty body contributes nothing. -/
def expandScenarioOutlineRows (s : Scenario) : List Scenario :=
  if s.examples = [] then [s]
  else
    s.examples.flatMap fun ex =>
      (ex.tableBody.getD []).map fun row =>
        cloneScenarioWithSingleRow s ex (some row)

/-- `gatherAllTagNames` (gherkinUtils.ts:112-122): feature, rule, scenario
and Examples-block tag names, in that order. -/
def gatherAllTagNames (f : Feature) (rule : Option Rule) (s : Scenario) :
    List String :=
  f.tags.map Tag.name ++
    (match rule with
     | some r => r.tags.map Tag.name
     | none => []) ++
    s.tags.map Tag.name ++
    s.examples.flatMap fun ex => ex.tags.map Tag.name

end GU

/-! ### Serializer cell escaping -/

/-- First escaping pass of `escapeTableCell` (featureParser.ts:477-482):
`value.replace(/\\/g, '\\\\')` — every backslash is doubled. -/
def escBackslash : List Char → List Char
  | [] => []
  | c :: rest =>
    if c = '\\' then '\\' :: '\\' :: escBackslash rest
    else c :: escBackslash rest

/-- Second pass: `.replace(/\|/g, '\\|')` — every pipe gets a backslash. -/
def escPipe : List Char → List Char
  | [] => []
  | c :: rest =>
    if c = '|' then '\\' :: '|' :: escPipe rest
    else c :: escPipe rest

/-- Third pass: `.replace(/\n/g, '\\n')` — every newline becomes the literal
two-character sequence backslash-`n`. -/
def escNewline : List Char → List Char
  | [] => []
  | c :: rest =>
    if c = '\n' then '\\' :: 'n' :: escNewline rest
    else c :: escNewline rest

/-- `escapeTableCell` (featureParser.ts:477-482): backslashes first, then
pipes, then newlines. -/
def escapeTableCell (value : String) : String :=
  String.mk (escNewline (escPipe (escBackslash value.data)))

/-- The corresponding un-escaping applied by a reader of the emitted table
cell (the external Gherkin parser re-reading the text): a left-to-right scan
decoding `\\`, `\|` and `\n`; a backslash before any other character is kept
as-is. -/
def unescapeCellChars : List Char → List Char
  | [] => []
  | [c] => [c]
  | c1 :: c2 :: rest =>
    if c1 = '\\' then
      (if c2 = '\\' then '\\'
       else if c2 = '|' then '|'
       else if c2 = 'n' then '\n'
       else c2) :: unescapeCellChars rest
    else c1 :: unescapeCellChars (c2 :: rest)

/-- String-level un-escaping. -/
def unescapeTableCell (value : String) : String :=
  String.mk (unescapeCellChars value.data)

namespace FS

/-- `buildStepLine` (featureSplitter.ts:388-400): keyword + text, then the
DocString fenced by `\x22\x22\x22` when its content is truthy (non-empty), then one
line per DataTable row with the cell values joined RAW by `s| |s` — this copy
applies no escaping to the cells. -/
def buildStepLine (step : Step) : String :=
  let t := step.keyword ++ step.text
  let t :=
    match step.docString with
    | some d =>
      if d.content = "" then t
      else t ++ "\n\x22\x22\x22\n" ++ d.content ++ "\n\x22\x22\x22"
    | none => t
  match step.dataTable with
  | some dt =>
    if dt.rows = [] then t
    else dt.rows.foldl
      (fun acc row =>
        acc ++ "\n| " ++ String.intercalate " | " (row.cells.map TableCell.value) ++ " |")
      t
  | none => t

end FS

namespace FP

/-- `buildStepLine` of the splitter copy living inside featureParser.ts
(lines 438-451): identical to `FS.buildStepLine` except that every DataTable
cell value goes through `escapeTableCell`. -/
def buildStepLine (step : Step) : String :=
  let t := step.keyword ++ step.text
  let t :=
    match step.docString with
    | some d =>
      if d.content = "" then t
      else t ++ "\n\x22\x22\x22\n" ++ d.content ++ "\n\x22\x22\x22"
    | none => t
  match step.dataTable with
  | some dt =>
    if dt.rows = [] then t
    else dt.rows.foldl
      (fun acc row =>
        acc ++ "\n| " ++
          String.intercalate " | " (row.cells.map fun c => escapeTableCell c.value) ++ " |")
      t
  | none => t

end FP

/-! ### Specification-side decomposition of a text into literals and tokens

Used to state that `replacePlaceholders` replaces EVERY placeholder
occurrence: any text that decomposes into literal characters (none of them
`<`) and well-formed `<token>` groups is rewritten token-by-token. -/

/-- A piece of a text: one literal character, or one `<tok>` placeholder
group (the token is the character list between the brackets). -/
inductive Piece where
  | lit (c : Char)
  | ph (tok : List Char)
deriving DecidableEq, Repr

/-- Flatten a piece list back into the text it denotes. -/
def flattenPieces : List Piece → List Char
  | [] => []
  | .lit c :: ps => c :: flattenPieces ps
  | .ph tok :: ps => '<' :: (tok ++ '>' :: flattenPieces ps)

/-- The substitution the spec describes, piece by piece: a literal character
stays; a placeholder whose token is in the mapping becomes the mapped value;
a placeholder with no entry is kept unchanged, angle brackets included. -/
def substPieces (pm : List (String × String)) : List Piece → List Char
  | [] => []
  | .lit c :: ps => c :: substPieces pm ps
  | .ph tok :: ps =>
    (match lookupLast pm (String.mk tok) with
     | some v => v.data
     | none => '<' :: (tok ++ ['>'])) ++ substPieces pm ps

/-- A well-formed decomposition: literal characters are not `<` (they start
no match), tokens are non-empty (the regex class `[^>]+` needs at least one
character) and contain no `>` (which would close the match early). -/
def GoodPiece : Piece → Prop
  | .lit c => c ≠ '<'
  | .ph tok => tok ≠ [] ∧ '>' ∉ tok

instance : DecidablePred GoodPiece := fun p => by
  cases p <;> simp [GoodPiece] <;> infer_instance

/-! ### Specification-side derived notions -/

/-- The scenarios of a document in document order (depth-first, rules
expanded in place) — the order §4.1 of the spec prescribes for the entry
collector's output. -/
def scenariosInDocOrder (f : Feature) : List Scenario :=
  f.children.flatMap fun c =>
    match c with
    | .background _ => []
    | .scenario s => [s]
    | .rule r => ruleScenariosOf r

/-- The rule-level backgrounds an entry must carry: none when the scenario is
top-level, the owning rule's backgrounds otherwise. -/
def scopedRuleBackgrounds : Option Rule → List Background
  | none => []
  | some r => ruleBackgroundsOf r

/-- The ownership side condition: when an entry names a rule, its scenario is
one of that rule's scenarios. -/
def scopedOwner (rule : Option Rule) (s : Scenario) : Prop :=
  match rule with
  | none => True
  | some r => s ∈ ruleScenariosOf r

instance (rule : Option Rule) (s : Scenario) : Decidable (scopedOwner rule s) := by
  cases rule <;> simp [scopedOwner] <;> infer_instance

/-- The tag names a rule slot contributes (empty when absent) — the
`rule ? (rule.tags ?? []).map(...) : []` expression of both gatherers. -/
def ruleTagNames : Option Rule → List String
  | none => []
  | some r => r.tags.map Tag.name

/-! ### Concrete inputs used by counterexamples and witnesses -/

/-- A one-column header row `| page |`. -/
def hdrPage : TableRow := ⟨"h1", [⟨"page"⟩]⟩

/-- A one-cell body row `| Home |`. -/
def rowHome : TableRow := ⟨"b1", [⟨"Home"⟩]⟩

/-- Further one-cell body rows. -/
def rowR1 : TableRow := ⟨"b2", [⟨"v1"⟩]⟩

def rowR2 : TableRow := ⟨"b3", [⟨"v2"⟩]⟩

/-- A well-formed single-row Examples block (`page` → `Home`). -/
def exPage : Examples := ⟨"e1", [], "", "", some hdrPage, some [rowHome]⟩

/-- A well-formed two-row Examples block. -/
def exTwoRows : Examples := ⟨"e3", [], "", "", some hdrPage, some [rowR1, rowR2]⟩

/-- An Examples block with a header but an EMPTY body. -/
def exEmpty : Examples := ⟨"e4", [], "", "", some hdrPage, some []⟩

/-- A well-formed one-row Examples block, distinct id from `exTwoRows`. -/
def exB : Examples := ⟨"e5", [], "", "", some hdrPage, some [rowR2]⟩

/-- A step carrying a DataTable whose single cell holds the raw placeholder
`<page>`. -/
def stepWithTable : Step :=
  ⟨"st1", "Given ", "I check the table", none, some ⟨[⟨"r1", [⟨"<page>"⟩]⟩]⟩⟩

/-- Scenario Outline whose sole Examples block maps `page` to `Home` and
whose step carries a `<page>` placeholder inside a DataTable cell. -/
def scnOutlineWithTable : Scenario :=
  ⟨"s1", "Scenario Outline", "On <page>", "", [], [stepWithTable], [exPage]⟩

/-- Scenario Outline with a scenario-level tag `@a` and an Examples-level tag
`@e` on its sole (well-formed) block. -/
def scnTagged : Scenario :=
  ⟨"s2", "Scenario Outline", "n", "", [⟨"t1", "@a"⟩], [],
    [⟨"e2", [⟨"t2", "@e"⟩], "", "", some hdrPage, some [rowHome]⟩]⟩

/-- Scenario Outline with a two-row block followed by an empty-body block:
three total clones for two total rows under the featureSplitter expander. -/
def scnTwoBlocksOneEmpty : Scenario :=
  ⟨"s3", "Scenario Outline", "n", "", [], [], [exTwoRows, exEmpty]⟩

/-- Scenario Outline with two populated Examples blocks. -/
def scnTwoBlocks : Scenario :=
  ⟨"s4", "Scenario Outline", "n", "", [], [], [exTwoRows, exB]⟩

/-- Scenario Outline whose sole Examples block has an empty body. -/
def scnEmptyBody : Scenario :=
  ⟨"s5", "Scenario Outline", "n", "", [], [], [exEmpty]⟩

/-- A plain scenario: no Examples blocks at all. -/
def scnPlain : Scenario := ⟨"s8", "Scenario", "plain", "", [], [], []⟩

/-- Scenario Outline whose sole Examples block is missing its header. -/
def scnNoHeader : Scenario :=
  ⟨"s9", "Scenario Outline", "n", "", [], [], [⟨"e9", [], "", "", none, some [rowHome]⟩]⟩

/-- Scenario Outline with two blocks, the first carrying two rows and a tag:
everything beyond the first block's first row is discarded by the
substituter. -/
def exFirstBlock : Examples :=
  ⟨"e10", [⟨"t3", "@x"⟩], "", "", some hdrPage, some [rowHome, rowR1]⟩

def scnMultiBlock : Scenario :=
  ⟨"s10", "Scenario Outline", "n on <page>", "", [], [], [exFirstBlock, exB]⟩

/-- A feature carrying one tag `@f` and no children. -/
def featTagged : Feature := ⟨[⟨"tf", "@f"⟩], "F", "", []⟩

/-- Scenario Outline with an Examples-level tag `@e`, used against the two
tag gatherers. -/
def scnExTagged : Scenario :=
  ⟨"s6", "Scenario Outline", "n", "", [], [],
    [⟨"e6", [⟨"te", "@e"⟩], "", "", some hdrPage, some [rowHome]⟩]⟩

/-- A step carrying a DataTable cell that contains a pipe character. -/
def stepPipeCell : Step :=
  ⟨"st7", "Given ", "the table", none, some ⟨[⟨"r7", [⟨"a|b"⟩]⟩]⟩⟩

/-- The document of the spec's §8 collector scenario: a top-level background
`B`, then a rule containing a rule-level background and scenario `S1`. -/
def bgTop : Background := ⟨"bg1", "B", "", [⟨"bs1", "Given ", "top-level setup", none, none⟩]⟩

def bgRule : Background := ⟨"bg2", "RB", "", [⟨"bs2", "Given ", "rule setup", none, none⟩]⟩

def scnS1 : Scenario := ⟨"s11", "Scenario", "S1", "", [], [], []⟩

def ruleWithScenario : Rule :=
  ⟨"r1", [⟨"tr", "@r"⟩], "R", "", [.background bgRule, .scenario scnS1]⟩

def featWithRule : Feature :=
  ⟨[⟨"tf2", "@top"⟩], "F2", "",
    [.background bgTop, .rule ruleWithScenario]⟩

/-- The entry the collector must produce for `S1`. -/
def entryS1 : ScenarioEntry := ⟨scnS1, some ruleWithScenario, [bgTop], [bgRule]⟩

/-! ### Helper lemmas about the substituter scan -/

/-- Inside a candidate match, scanning the rest of a `>`-free token followed
by the closing `>` produces the token replacement (or the literal `<>` when
the whole token is empty) and resumes the outside scan. -/
lemma rpAux_token (pm : List (String × String)) (tok : List Char)
    (htok : '>' ∉ tok) (acc rest : List Char) :
    rpAux pm (some acc) (tok ++ '>' :: rest) =
      if acc.reverse ++ tok = [] then '<' :: '>' :: rpAux pm none rest
      else tokenReplacement pm (acc.reverse ++ tok) ++ rpAux pm none rest := by
  induction tok generalizing acc with
  | nil =>
    simp only [List.nil_append, List.append_nil, rpAux, if_pos rfl]
    rcases Decidable.em (acc = []) with h | h
    · simp [h]
    · simp [h, List.reverse_eq_nil_iff]
  | cons c tok' ih =>
    have hc : c ≠ '>' := fun h => htok (h ▸ List.mem_cons_self c tok')
    have htok' : '>' ∉ tok' := fun h => htok (List.mem_cons_of_mem c h)
    simp only [List.cons_append, rpAux, if_neg hc, List.append_eq]
    rw [ih htok' (c :: acc)]
    simp [List.append_assoc]

/-- The substituter scan rewrites a decomposed text piece by piece: literal
characters are copied, every placeholder group is replaced according to the
mapping (kept verbatim when unmapped). -/
lemma rpAux_flattenPieces (pm : List (String × String)) (ps : List Piece)
    (h : ∀ p ∈ ps, GoodPiece p) :
    rpAux pm none (flattenPieces ps) = substPieces pm ps := by
  induction ps with
  | nil => rfl
  | cons p ps ih =>
    have hp : GoodPiece p := h p (List.mem_cons_self p ps)
    have hps : ∀ q ∈ ps, GoodPiece q := fun q hq => h q (List.mem_cons_of_mem p hq)
    cases p with
    | lit c =>
      have hc : c ≠ '<' := hp
      simp [flattenPieces, rpAux, if_neg hc, substPieces, ih hps]
    | ph tok =>
      obtain ⟨hne, hgt⟩ : tok ≠ [] ∧ '>' ∉ tok := hp
      simp only [flattenPieces, rpAux, if_pos rfl]
      rw [rpAux_token pm tok hgt [] (flattenPieces ps)]
      simp [hne, substPieces, tokenReplacement, ih hps]

/-! ### Helper lemmas about cell escaping -/

/-- The three escaping passes, fused on a leading backslash. -/
lemma escAll_backslash (l : List Char) :
    escNewline (escPipe (escBackslash ('\\' :: l))) =
      '\\' :: '\\' :: escNewline (escPipe (escBackslash l)) := by
  simp [escBackslash, escPipe, escNewline]

/-- The three escaping passes, fused on a leading pipe. -/
lemma escAll_pipe (l : List Char) :
    escNewline (escPipe (escBackslash ('|' :: l))) =
      '\\' :: '|' :: escNewline (escPipe (escBackslash l)) := by
  simp [escBackslash, escPipe, escNewline]

/-- The three escaping passes, fused on a leading newline. -/
lemma escAll_newline (l : List Char) :
    escNewline (escPipe (escBackslash ('\n' :: l))) =
      '\\' :: 'n' :: escNewline (escPipe (escBackslash l)) := by
  simp [escBackslash, escPipe, escNewline]

/-- The three escaping passes copy any other character. -/
lemma escAll_other (c : Char) (l : List Char)
    (h1 : c ≠ '\\') (h2 : c ≠ '|') (h3 : c ≠ '\n') :
    escNewline (escPipe (escBackslash (c :: l))) =
      c :: escNewline (escPipe (escBackslash l)) := by
  simp [escBackslash, escPipe, escNewline, h1, h2, h3]

/-- Un-escaping inverts the three escaping passes, character list level. -/
lemma unescape_escape_chars (l : List Char) :
    unescapeCellChars (escNewline (escPipe (escBackslash l))) = l := by
  induction l with
  | nil => rfl
  | cons c rest ih =>
    rcases Decidable.em (c = '\\') with h1 | h1
    · subst h1
      rw [escAll_backslash]
      simp [unescapeCellChars, ih]
    · rcases Decidable.em (c = '|') with h2 | h2
      · subst h2
        rw [escAll_pipe]
        simp [unescapeCellChars, ih]
      · rcases Decidable.em (c = '\n') with h3 | h3
        · subst h3
          rw [escAll_newline]
          simp [unescapeCellChars, ih]
        · rw [escAll_other c rest h1 h2 h3]
          rcases e : escNewline (escPipe (escBackslash rest)) with _ | ⟨d, ds⟩
          · rw [e] at ih
            simp [unescapeCellChars, ← ih]
          · rw [e] at ih
            simp [unescapeCellChars, h1, ih]

/-! ### Helper lemmas about the row expanders -/

/-- Flat-mapping two pointwise-equal functions over the same list agrees. -/
lemma flatMap_congr {α β : Type} (l : List α) (f g : α → List β)
    (h : ∀ a ∈ l, f a = g a) : l.flatMap f = l.flatMap g := by
  induction l with
  | nil => rfl
  | cons x xs ih =>
    simp only [List.flatMap_cons]
    rw [h x (List.mem_cons_self x xs),
      ih fun a ha => h a (List.mem_cons_of_mem x ha)]

/-- With pairwise-distinct block ids, filtering a block list for a member's
id keeps exactly that member. -/
lemma filter_id_eq_single (l : List Examples) (ex : Examples)
    (hnd : (l.map Examples.id).Nodup) (hmem : ex ∈ l) :
    (l.filter fun b => b.id = ex.id) = [ex] := by
  induction l with
  | nil => cases hmem
  | cons h t ih =>
    rw [List.map_cons, List.nodup_cons] at hnd
    rcases List.mem_cons.mp hmem with rfl | hmem'
    · have hnil : (t.filter fun b => b.id = ex.id) = [] := by
        rw [List.filter_eq_nil_iff]
        intro b hb
        simp only [decide_eq_true_eq]
        intro hbid
        exact hnd.1 (hbid ▸ List.mem_map_of_mem Examples.id hb)
      simp [List.filter, hnil]
    · have hne : ¬h.id = ex.id := by
        intro e
        exact hnd.1 (e ▸ List.mem_map_of_mem Examples.id hmem')
      simp [List.filter, hne, ih hnd.2 hmem']

/-- With pairwise-distinct block ids, exactly one block of the list matches a
member's id, so the indicator sum is 1. -/
lemma sum_ite_id_eq_one (l : List Examples) (ex : Examples)
    (hnd : (l.map Examples.id).Nodup) (hmem : ex ∈ l) :
    (l.map fun b => if b.id = ex.id then (1 : Nat) else 0).sum = 1 := by
  induction l with
  | nil => cases hmem
  | cons h t ih =>
    rw [List.map_cons, List.nodup_cons] at hnd
    rcases List.mem_cons.mp hmem with rfl | hmem'
    · have hzero : (t.map fun b => if b.id = ex.id then (1 : Nat) else 0).sum = 0 := by
        apply List.sum_eq_zero
        intro x hx
        rcases List.mem_map.mp hx with ⟨b, hb, rfl⟩
        have : ¬b.id = ex.id := by
          intro e
          exact hnd.1 (e ▸ List.mem_map_of_mem Examples.id hb)
        simp [this]
      simp [hzero]
    · have hne : ¬h.id = ex.id := by
        intro e
        exact hnd.1 (e ▸ List.mem_map_of_mem Examples.id hmem')
      simp [hne, ih hnd.2 hmem']

/-- A featureSplitter-style clone of a member block with a single retained
row has total body-row count exactly 1 (all other blocks are emptied). -/
lemma FS_clone_totalRows (s : Scenario) (ex : Examples) (row : TableRow)
    (hnd : (s.examples.map Examples.id).Nodup) (hmem : ex ∈ s.examples) :
    scenarioTotalRows (FS.cloneScenarioWithSingleRow s ex (some row)) = 1 := by
  unfold scenarioTotalRows FS.cloneScenarioWithSingleRow
  simp only [List.map_map]
  have key : List.map ((fun e => (e.tableBody.getD []).length) ∘ fun exBlock =>
      if exBlock.id = ex.id then { exBlock with tableBody := some (some row).toList }
      else { exBlock with tableBody := some [] }) s.examples
      = List.map (fun b => if b.id = ex.id then (1 : Nat) else 0) s.examples := by
    apply List.map_eq_map_iff.mpr
    intro b _
    rcases Decidable.em (b.id = ex.id) with hb | hb <;> simp [Function.comp, hb]
  rw [key]
  exact sum_ite_id_eq_one s.examples ex hnd hmem

/-- A gherkinUtils-style clone of a member block with a single retained row
has total body-row count exactly 1 (all other blocks are dropped). -/
lemma GU_clone_totalRows (s : Scenario) (ex : Examples) (row : TableRow)
    (hnd : (s.examples.map Examples.id).Nodup) (hmem : ex ∈ s.examples) :
    scenarioTotalRows (GU.cloneScenarioWithSingleRow s ex (some row)) = 1 := by
  unfold scenarioTotalRows GU.cloneScenarioWithSingleRow
  rw [filter_id_eq_single s.examples ex hnd hmem]
  simp

/-! ### Claim C1 -/

/-- C1, counterexample: the original claim says DataTable cell values are
substituted; the code preserves `step.dataTable` untouched. For the mapping
`page → Home`, the substituter itself would rewrite the cell text `<page>`
to `Home`, yet the resulting scenario still carries the raw `<page>` cell. -/
theorem substituter_dataTable_not_substituted_cex :
    (processScenarioOutline "fresh" scnOutlineWithTable).map
        (fun r => r.steps.map Step.dataTable)
      = some [some ⟨[⟨"r1", [⟨"<page>"⟩]⟩]⟩]
    ∧ replacePlaceholders "<page>" (buildPlaceholderMap hdrPage rowHome) = "Home"
    ∧ ("<page>" : String) ≠ "Home" :=
  ⟨rfl, rfl, by decide⟩

/-- C1 (amended): for a Scenario Outline whose sole Examples block has one
header row and one body row, the substituter succeeds and rewrites the
scenario name, every step's text and every DocString content through the
positional header-to-row mapping — any text decomposing into literals and
well-formed `<token>` groups has every mapped token replaced by its value and
every unmapped token kept verbatim with its angle brackets, never an error —
while DataTable cell values are passed through UNSUBSTITUTED. -/
theorem substituter_substitutes_name_steps_docstrings :
    (∀ (pm : List (String × String)) (ps : List Piece), (∀ p ∈ ps, GoodPiece p) →
      replacePlaceholders (String.mk (flattenPieces ps)) pm = String.mk (substPieces pm ps))
    ∧ (∀ (nid : String) (s : Scenario) (ex : Examples) (hdr r0 : TableRow),
        s.examples = [ex] → ex.tableHeader = some hdr → ex.tableBody = some [r0] →
        processScenarioOutline nid s = some { s with
          examples := []
          id := nid
          tags := s.tags
          name := replacePlaceholders s.name (buildPlaceholderMap hdr r0)
          steps := s.steps.map (substStep (buildPlaceholderMap hdr r0)) })
    ∧ (∀ (pm : List (String × String)) (st : Step), (substStep pm st).dataTable = st.dataTable) := by
  refine ⟨?_, ?_, ?_⟩
  · intro pm ps h
    exact congrArg String.mk (rpAux_flattenPieces pm ps h)
  · intro nid s ex hdr r0 h1 h2 h3
    simp [processScenarioOutline, h1, h2, h3]
  · intro pm st
    rfl

/-- Witness for the C1 theorem: the piece decomposition
`a`, `<p>`, `<q>` under the mapping `p → X`, and the substituter run on the
concrete outline. -/
theorem substituter_substitutes_name_steps_docstrings_witness :
    replacePlaceholders (String.mk (flattenPieces [Piece.lit 'a', Piece.ph ['p'], Piece.ph ['q']]))
        [("p", "X")]
      = String.mk (substPieces [("p", "X")] [Piece.lit 'a', Piece.ph ['p'], Piece.ph ['q']])
    ∧ processScenarioOutline "fresh" scnOutlineWithTable = some { scnOutlineWithTable with
        examples := []
        id := "fresh"
        tags := scnOutlineWithTable.tags
        name := replacePlaceholders scnOutlineWithTable.name (buildPlaceholderMap hdrPage rowHome)
        steps := scnOutlineWithTable.steps.map (substStep (buildPlaceholderMap hdrPage rowHome)) }
    ∧ (substStep [] stepWithTable).dataTable = stepWithTable.dataTable :=
  ⟨substituter_substitutes_name_steps_docstrings.1 [("p", "X")]
      [Piece.lit 'a', Piece.ph ['p'], Piece.ph ['q']] (by decide),
   substituter_substitutes_name_steps_docstrings.2.1 "fresh" scnOutlineWithTable exPage
      hdrPage rowHome rfl rfl rfl,
   substituter_substitutes_name_steps_docstrings.2.2 [] stepWithTable⟩

/-! ### Claim C2 -/

/-- C2, counterexample: the substituted scenario's tag list is exactly the
original scenario's tags; the consumed Examples block's tag `@e` is present
on the block but absent from the result, so the result is NOT the union of
the two tag sets. -/
theorem substituter_drops_examples_tags_cex :
    (processScenarioOutline "fresh2" scnTagged).map Scenario.tags = some [⟨"t1", "@a"⟩]
    ∧ (⟨"t2", "@e"⟩ : Tag) ∈ scnTagged.examples.flatMap Examples.tags
    ∧ (⟨"t2", "@e"⟩ : Tag) ∉ ([⟨"t1", "@a"⟩] : List Tag) :=
  ⟨rfl, by decide, by decide⟩

/-- C2 (amended): a successfully substituted Scenario Outline yields a
scenario with an empty Examples sequence, the freshly supplied identity
(distinct from the original whenever the generated id differs), and EXACTLY
the original scenario's tags — Examples-level tags are dropped, not
promoted. -/
theorem substituter_result_identity_and_tags :
    ∀ (nid : String) (s : Scenario) (ex : Examples) (rest : List Examples)
      (hdr r0 : TableRow) (rs : List TableRow),
      s.examples = ex :: rest → ex.tableHeader = some hdr → ex.tableBody = some (r0 :: rs) →
      (processScenarioOutline nid s).map Scenario.examples = some []
      ∧ (processScenarioOutline nid s).map Scenario.id = some nid
      ∧ (processScenarioOutline nid s).map Scenario.tags = some s.tags
      ∧ (nid ≠ s.id → (processScenarioOutline nid s).map Scenario.id ≠ some s.id) := by
  intro nid s ex rest hdr r0 rs h1 h2 h3
  simp [processScenarioOutline, h1, h2, h3]

/-- Witness for the C2 theorem on the tagged outline. -/
theorem substituter_result_identity_and_tags_witness :
    (processScenarioOutline "fresh3" scnTagged).map Scenario.examples = some []
    ∧ (processScenarioOutline "fresh3" scnTagged).map Scenario.id = some "fresh3"
    ∧ (processScenarioOutline "fresh3" scnTagged).map Scenario.tags = some scnTagged.tags
    ∧ ("fresh3" ≠ scnTagged.id →
        (processScenarioOutline "fresh3" scnTagged).map Scenario.id ≠ some scnTagged.id) :=
  substituter_result_identity_and_tags "fresh3" scnTagged
    ⟨"e2", [⟨"t2", "@e"⟩], "", "", some hdrPage, some [rowHome]⟩ [] hdrPage rowHome []
    rfl rfl rfl

/-! ### Claim C9 -/

/-- C9 (confirmed): on a degenerate input — no Examples blocks, or a first
block missing its header, missing its body, or with an empty body — the
substituter returns the no-op signal `none` instead of failing. -/
theorem substituter_degenerate_noop :
    ∀ (nid : String) (s : Scenario),
      (s.examples = []
        ∨ ∃ ex rest, s.examples = ex :: rest
            ∧ (ex.tableHeader = none ∨ ex.tableBody = none ∨ ex.tableBody = some [])) →
      processScenarioOutline nid s = none := by
  intro nid s h
  rcases h with h | ⟨ex, rest, hex, hmal⟩
  · simp [processScenarioOutline, h]
  · rcases hmal with h1 | h2 | h3
    · simp [processScenarioOutline, hex, h1]
    · rcases hh : ex.tableHeader with _ | hdr <;>
        simp [processScenarioOutline, hex, hh, h2]
    · rcases hh : ex.tableHeader with _ | hdr <;>
        simp [processScenarioOutline, hex, hh, h3]

/-- Witness for the C9 theorem: a plain scenario, a header-less block and an
empty-body block all yield the no-op signal. -/
theorem substituter_degenerate_noop_witness :
    processScenarioOutline "w" scnPlain = none
    ∧ processScenarioOutline "w" scnNoHeader = none
    ∧ processScenarioOutline "w" scnEmptyBody = none :=
  ⟨substituter_degenerate_noop "w" scnPlain (Or.inl rfl),
   substituter_degenerate_noop "w" scnNoHeader (Or.inr ⟨_, _, rfl, Or.inl rfl⟩),
   substituter_degenerate_noop "w" scnEmptyBody (Or.inr ⟨_, _, rfl, Or.inr (Or.inr rfl)⟩)⟩

/-! ### Claim C10 -/

/-- C10 (confirmed): with two or more Examples blocks, the substituter reads
only the first block's header and that block's first body row — the result is
unchanged if every other block and every later row is deleted beforehand —
and the result carries an empty Examples sequence, so all the discarded
material is silently dropped without error. -/
theorem substituter_uses_only_first_block_first_row :
    ∀ (nid : String) (s : Scenario) (ex : Examples) (rest : List Examples)
      (hdr r0 : TableRow) (rs : List TableRow),
      s.examples = ex :: rest → ex.tableHeader = some hdr → ex.tableBody = some (r0 :: rs) →
      processScenarioOutline nid s
          = processScenarioOutline nid
              { s with examples := [{ ex with tableBody := some [r0] }] }
      ∧ (processScenarioOutline nid s).map Scenario.examples = some [] := by
  intro nid s ex rest hdr r0 rs h1 h2 h3
  constructor
  · simp [processScenarioOutline, h1, h2, h3]
  · simp [processScenarioOutline, h1, h2, h3]

/-- Witness for the C10 theorem: a two-block outline whose first block has
two rows gives the same result as its first-row-only truncation. -/
theorem substituter_uses_only_first_block_first_row_witness :
    processScenarioOutline "w10" scnMultiBlock
        = processScenarioOutline "w10"
            { scnMultiBlock with examples := [{ exFirstBlock with tableBody := some [rowHome] }] }
    ∧ (processScenarioOutline "w10" scnMultiBlock).map Scenario.examples = some [] :=
  substituter_uses_only_first_block_first_row "w10" scnMultiBlock exFirstBlock [exB]
    hdrPage rowHome [rowR1] rfl rfl rfl

/-! ### Claim C3 -/

/-- C3, counterexample: on an outline with N = 2 total body rows spread over
a two-row block plus an EMPTY block, the featureSplitter expander yields 3
variants, not exactly N = 2, and the extra empty-block clone has total
body-row count 0, not 1. -/
theorem splitter_expander_empty_block_cex :
    scenarioTotalRows scnTwoBlocksOneEmpty = 2
    ∧ (FS.expandScenarioOutlineRows scnTwoBlocksOneEmpty).length = 3
    ∧ ((3 : Nat) ≠ 2)
    ∧ (FS.expandScenarioOutlineRows scnTwoBlocksOneEmpty).map scenarioTotalRows = [1, 1, 0] :=
  ⟨rfl, rfl, by decide, rfl⟩

/-- C3 (amended): with pairwise-distinct block ids, the helper
(gherkinUtils) expander yields exactly one variant per (block, body row)
pair in document order, with total count equal to the total body-row count
and every variant carrying exactly one body row — unconditionally for any
non-empty Examples sequence; the featureSplitter expander satisfies the same
property for N > 1 total rows PROVIDED every Examples block has at least one
body row (an empty block there contributes one extra zero-row clone). -/
theorem expander_one_variant_per_row :
    ∀ s : Scenario, (s.examples.map Examples.id).Nodup →
      (s.examples ≠ [] →
        GU.expandScenarioOutlineRows s
            = s.examples.flatMap (fun ex => (ex.tableBody.getD []).map
                fun row => GU.cloneScenarioWithSingleRow s ex (some row))
        ∧ (GU.expandScenarioOutlineRows s).length = scenarioTotalRows s
        ∧ ∀ v ∈ GU.expandScenarioOutlineRows s, scenarioTotalRows v = 1)
      ∧ (1 < scenarioTotalRows s → (∀ ex ∈ s.examples, ex.tableBody.getD [] ≠ []) →
        FS.expandScenarioOutlineRows s
            = s.examples.flatMap (fun ex => (ex.tableBody.getD []).map
                fun row => FS.cloneScenarioWithSingleRow s ex (some row))
        ∧ (FS.expandScenarioOutlineRows s).length = scenarioTotalRows s
        ∧ ∀ v ∈ FS.expandScenarioOutlineRows s, scenarioTotalRows v = 1) := by
  intro s hnd
  constructor
  · intro hne
    have heq : GU.expandScenarioOutlineRows s
        = s.examples.flatMap fun ex => (ex.tableBody.getD []).map
            fun row => GU.cloneScenarioWithSingleRow s ex (some row) := by
      simp [GU.expandScenarioOutlineRows, hne]
    refine ⟨heq, ?_, ?_⟩
    · rw [heq, List.length_flatMap]
      simp [scenarioTotalRows, Function.comp_def, List.length_map]
    · intro v hv
      rw [heq] at hv
      rcases List.mem_flatMap.mp hv with ⟨ex, hex, hv'⟩
      rcases List.mem_map.mp hv' with ⟨row, _, rfl⟩
      exact GU_clone_totalRows s ex row hnd hex
  · intro hgt hall
    have hne : s.examples ≠ [] := by
      intro h
      rw [show scenarioTotalRows s = 0 from by simp [scenarioTotalRows, h]] at hgt
      exact absurd hgt (by decide)
    have heq : FS.expandScenarioOutlineRows s
        = s.examples.flatMap fun ex => (ex.tableBody.getD []).map
            fun row => FS.cloneScenarioWithSingleRow s ex (some row) := by
      unfold FS.expandScenarioOutlineRows
      rw [if_neg hne, if_neg (not_le.mpr hgt)]
      apply flatMap_congr
      intro ex hex
      rcases hb : ex.tableBody with _ | body
      · exact absurd (show ex.tableBody.getD [] = [] by simp [hb]) (hall ex hex)
      · rcases body with _ | ⟨r, rs⟩
        · exact absurd (show ex.tableBody.getD [] = [] by simp [hb]) (hall ex hex)
        · simp [hb]
    refine ⟨heq, ?_, ?_⟩
    · rw [heq, List.length_flatMap]
      simp [scenarioTotalRows, Function.comp_def, List.length_map]
    · intro v hv
      rw [heq] at hv
      rcases List.mem_flatMap.mp hv with ⟨ex, hex, hv'⟩
      rcases List.mem_map.mp hv' with ⟨row, _, rfl⟩
      exact FS_clone_totalRows s ex row hnd hex

/-- Witness for the C3 theorem: both expanders produce one variant per body
row on a two-block, three-row outline. -/
theorem expander_one_variant_per_row_witness :
    (GU.expandScenarioOutlineRows scnTwoBlocks).length = scenarioTotalRows scnTwoBlocks
    ∧ (FS.expandScenarioOutlineRows scnTwoBlocks).length = scenarioTotalRows scnTwoBlocks :=
  ⟨((expander_one_variant_per_row scnTwoBlocks (by decide)).1 (by decide)).2.1,
   ((expander_one_variant_per_row scnTwoBlocks (by decide)).2 (by decide) (by decide)).2.1⟩

/-! ### Claim C4 -/

/-- C4, counterexample: the helper (gherkinUtils) clone FILTERS the Examples
list down to the targeted block, so the second block of a two-block outline
is dropped entirely instead of being kept with an emptied body. -/
theorem helper_clone_drops_other_blocks_cex :
    scnTwoBlocks.examples.length = 2
    ∧ (GU.cloneScenarioWithSingleRow scnTwoBlocks exTwoRows (some rowR1)).examples.map Examples.id
        = ["e3"]
    ∧ (GU.cloneScenarioWithSingleRow scnTwoBlocks exTwoRows (some rowR1)).examples.length
        ≠ scnTwoBlocks.examples.length :=
  ⟨rfl, rfl, by decide⟩

/-- C4 (amended): the featureSplitter clone keeps the scenario's name,
steps, id and tags verbatim (placeholders stay literal), and maps each
Examples block to a copy preserving id, name, description, header and tags,
whose body is `[row]` for the targeted block's id and `[]` for every other
block; the helper (gherkinUtils) clone instead drops all non-targeted
blocks. -/
theorem splitter_clone_preserves_other_blocks :
    ∀ (s : Scenario) (tgt : Examples) (row : TableRow),
      (FS.cloneScenarioWithSingleRow s tgt (some row)).name = s.name
      ∧ (FS.cloneScenarioWithSingleRow s tgt (some row)).steps = s.steps
      ∧ (FS.cloneScenarioWithSingleRow s tgt (some row)).id = s.id
      ∧ (FS.cloneScenarioWithSingleRow s tgt (some row)).tags = s.tags
      ∧ List.Forall₂ (fun b b' : Examples =>
          b'.id = b.id ∧ b'.name = b.name ∧ b'.description = b.description
          ∧ b'.tableHeader = b.tableHeader ∧ b'.tags = b.tags
          ∧ b'.tableBody = some (if b.id = tgt.id then [row] else []))
        s.examples (FS.cloneScenarioWithSingleRow s tgt (some row)).examples := by
  intro s tgt row
  refine ⟨rfl, rfl, rfl, rfl, ?_⟩
  show List.Forall₂ _ s.examples (s.examples.map _)
  rw [List.forall₂_map_right_iff, List.forall₂_same]
  intro b _
  rcases Decidable.em (b.id = tgt.id) with h | h <;> simp [h]

/-! ### Claim C5 -/

/-- C5, counterexample: on an outline whose sole Examples block has an empty
body (total body-row count 0 ≤ 1), the helper (gherkinUtils) expander
returns the EMPTY list, not the scenario unchanged as sole element. -/
theorem helper_expander_empty_body_cex :
    GU.expandScenarioOutlineRows scnEmptyBody = []
    ∧ ([] : List Scenario) ≠ [scnEmptyBody] :=
  ⟨rfl, by decide⟩

/-- C5 (amended): the featureSplitter expander returns the scenario
unchanged as the sole output element whenever its total body-row count is at
most 1 (including scenarios with no Examples blocks); the helper
(gherkinUtils) expander guarantees this only for scenarios with no Examples
blocks — with blocks present it clones instead, yielding an empty output
when the total body-row count is 0. -/
theorem splitter_expander_minimal_unchanged :
    ∀ s : Scenario, scenarioTotalRows s ≤ 1 → FS.expandScenarioOutlineRows s = [s] := by
  intro s h
  unfold FS.expandScenarioOutlineRows
  rcases Decidable.em (s.examples = []) with he | he
  · rw [if_pos he]
  · rw [if_neg he, if_pos h]

/-- Witness for the C5 theorem: an outline with one empty-body block (0 total
rows) is returned unchanged by the featureSplitter expander. -/
theorem splitter_expander_minimal_unchanged_witness :
    scenarioTotalRows scnEmptyBody ≤ 1
    ∧ FS.expandScenarioOutlineRows scnEmptyBody = [scnEmptyBody] :=
  ⟨by decide, splitter_expander_minimal_unchanged scnEmptyBody (by decide)⟩

/-! ### Claim C6 -/

/-- C6, counterexample: the featureSplitter copy of the tag gatherer omits
Examples-block tags — for a feature tagged `@f` and a scenario whose block
carries `@e`, it returns just `[@f]`, while the helper copy does include
`@e`. -/
theorem splitter_gather_omits_examples_tags_cex :
    FS.gatherAllTagNames featTagged none scnExTagged = ["@f"]
    ∧ "@e" ∈ GU.gatherAllTagNames featTagged none scnExTagged
    ∧ "@e" ∉ (["@f"] : List String) :=
  ⟨rfl, by decide, by decide⟩

/-- C6 (amended): the helper (gherkinUtils) tag gatherer returns exactly the
names drawn from the document's tags, the rule's tags when present, the
scenario's tags, and every tag of every attached Examples block; the
featureSplitter-local copy omits the Examples-block tags, but the document's
tags are a subset of its result as well. -/
theorem helper_gather_tag_membership :
    ∀ (f : Feature) (rule : Option Rule) (s : Scenario) (t : String),
      (t ∈ GU.gatherAllTagNames f rule s ↔
        (t ∈ f.tags.map Tag.name ∨ t ∈ ruleTagNames rule ∨ t ∈ s.tags.map Tag.name
          ∨ ∃ ex ∈ s.examples, t ∈ ex.tags.map Tag.name))
      ∧ (t ∈ f.tags.map Tag.name → t ∈ FS.gatherAllTagNames f rule s) := by
  intro f rule s t
  constructor
  · cases rule <;>
      simp [GU.gatherAllTagNames, ruleTagNames, List.mem_flatMap, or_assoc]
  · intro ht
    exact List.mem_append.mpr (Or.inl (List.mem_append.mpr (Or.inl ht)))

/-- Witness for the C6 theorem: the Examples-level tag `@e` is recovered
through the helper gatherer and the feature tag `@f` through the splitter
copy. -/
theorem helper_gather_tag_membership_witness :
    "@e" ∈ GU.gatherAllTagNames featTagged none scnExTagged
    ∧ "@f" ∈ FS.gatherAllTagNames featTagged none scnExTagged :=
  ⟨(helper_gather_tag_membership featTagged none scnExTagged "@e").1.mpr (by decide),
   (helper_gather_tag_membership featTagged none scnExTagged "@f").2 (by decide)⟩

/-! ### Claim C7 -/

/-- C7, counterexample: the featureSplitter serializer emits DataTable cell
values RAW — a cell containing a pipe is written without escaping, unlike
the featureParser-resident serializer, which routes the same cell through
`escapeTableCell`. So not every emitted cell is escaped as claimed. -/
theorem splitter_serializer_raw_cell_cex :
    FS.buildStepLine stepPipeCell = "Given the table\n| a|b |"
    ∧ FP.buildStepLine stepPipeCell = "Given the table\n| a\\|b |"
    ∧ escapeTableCell "a|b" = "a\\|b"
    ∧ FS.buildStepLine stepPipeCell ≠ FP.buildStepLine stepPipeCell :=
  ⟨rfl, rfl, rfl, by decide⟩

/-- C7 (amended): `escapeTableCell` (used for every DataTable cell by the
serializer copy residing in featureParser.ts) escapes backslashes first,
then pipes, then newlines, and the corresponding un-escaping recovers every
original cell value exactly — for ALL values, in particular those containing
`|`, `\`, or embedded newlines; the featureSplitter-local serializer,
however, emits cells without this escaping. -/
theorem escape_unescape_roundTrip :
    ∀ v : String, unescapeTableCell (escapeTableCell v) = v := by
  intro v
  exact congrArg String.mk (unescape_escape_chars v.data)

/-! ### Claim C8 -/

/-- C8 (confirmed): the entry collector produces one entry per scenario, at
top level or inside any rule, in document order; the document-level
backgrounds are attached to EVERY entry (also to entries inside a rule), and
each entry's rule-level backgrounds are exactly those of its owning rule —
the empty list for top-level scenarios — with the entry's scenario genuinely
belonging to that rule. -/
theorem collectScenarioEntries_spec :
    ∀ f : Feature,
      (collectScenarioEntries f).map ScenarioEntry.scenario = scenariosInDocOrder f
      ∧ ∀ e ∈ collectScenarioEntries f,
          e.featureBackgrounds = featureBackgroundsOf f
          ∧ e.ruleBackgrounds = scopedRuleBackgrounds e.rule
          ∧ scopedOwner e.rule e.scenario := by
  intro f
  constructor
  · show (f.children.flatMap fun c =>
        match c with
        | .background _ => []
        | .scenario s => [⟨s, none, featureBackgroundsOf f, []⟩]
        | .rule r => (ruleScenariosOf r).map fun s =>
            ⟨s, some r, featureBackgroundsOf f, ruleBackgroundsOf r⟩).map
          ScenarioEntry.scenario = scenariosInDocOrder f
    unfold scenariosInDocOrder
    rw [List.map_flatMap]
    apply flatMap_congr
    intro c _
    cases c with
    | background b => rfl
    | scenario s => rfl
    | rule r => simp [List.map_map, Function.comp_def]
  · intro e he
    have he' : e ∈ f.children.flatMap fun c =>
        match c with
        | .background _ => []
        | .scenario s => [⟨s, none, featureBackgroundsOf f, []⟩]
        | .rule r => (ruleScenariosOf r).map fun s =>
            ⟨s, some r, featureBackgroundsOf f, ruleBackgroundsOf r⟩ := he
    rcases List.mem_flatMap.mp he' with ⟨c, hc, hmem⟩
    cases c with
    | background b => cases hmem
    | scenario s =>
      rcases List.mem_singleton.mp hmem with rfl
      exact ⟨rfl, rfl, trivial⟩
    | rule r =>
      rcases List.mem_map.mp hmem with ⟨s, hs, rfl⟩
      exact ⟨rfl, rfl, hs⟩

/-- Witness for the C8 theorem on the spec's §8 document: a top-level
background `B` and a rule containing scenario `S1` — the entry for `S1`
carries `B` (declared outside the rule) together with the rule's own
background. -/
theorem collectScenarioEntries_spec_witness :
    (collectScenarioEntries featWithRule).map ScenarioEntry.scenario
        = scenariosInDocOrder featWithRule
    ∧ entryS1 ∈ collectScenarioEntries featWithRule
    ∧ entryS1.featureBackgrounds = featureBackgroundsOf featWithRule
    ∧ entryS1.ruleBackgrounds = scopedRuleBackgrounds entryS1.rule
    ∧ scopedOwner entryS1.rule entryS1.scenario :=
  ⟨(collectScenarioEntries_spec featWithRule).1,
   by decide,
   ((collectScenarioEntries_spec featWithRule).2 entryS1 (by decide)).1,
   ((collectScenarioEntries_spec featWithRule).2 entryS1 (by decide)).2.1,
   ((collectScenarioEntries_spec featWithRule).2 entryS1 (by decide)).2.2⟩

end Gherkin
